import Mathlib

/-!
Shallow embedding of the financeOS sync-service:
  * `src/sync-service/src/financedl/config.py` — the session pipeline
    (finance-dl config synthesizer), and
  * `src/sync-service/src/ofx/client.py` — the OFX Direct Connect pipeline.

The ambient process environment is modelled as a partial map
`Env : String → Option String` (`os.environ.get k default` becomes
`(env k).getD default`).  Filesystem and network side effects are recorded
explicitly: directory creations, protocol sessions constructed, statement
requests issued and files written are returned as lists alongside each
function's result.  The two `datetime.now(UTC)` reads and the local
`datetime.now()` read of `client.py` are three independent inputs of the
`World` record, UTC instants being integers counted in seconds.
-/

/-- The ambient process environment, a partial map from variable names to
values. -/
abbrev Env := String → Option String

/-- `os.environ.get k ""` — lookup with the empty string as default. -/
def getenv (env : Env) (k : String) : String :=
  (env k).getD ""

/-- `b.startswith sep` test used by `posixpath.join`. -/
def isabs (s : String) : Bool :=
  s.data.take 1 = ['/']

/-- Whether a path already ends with the separator. -/
def endsWithSlash (s : String) : Bool :=
  s.data.getLast? = some '/'

/-- `os.path.join a b` (posix, two components): if `b` is absolute it wins;
otherwise `a` and `b` are glued, inserting "/" unless `a` is empty or
already ends with "/". -/
def ospath_join (a b : String) : String :=
  if isabs b then b
  else if a = "" then a ++ b
  else if endsWithSlash a then a ++ b
  else a ++ "/" ++ b

/-! ## `financedl/config.py` -/

/-- `INSTITUTION_MODULES` — static registry mapping a session institution to
its finance-dl adapter module. -/
def INSTITUTION_MODULES (inst : String) : Option String :=
  if inst = "capitalone" then some "finance_dl.capitalone"
  else if inst = "macu" then some "finance_dl.mountain_america"
  else if inst = "m1finance" then some "finance_dl.m1finance"
  else none

/-- `ENV_KEYS` — static registry mapping a session institution to its
(username, password) environment variable names. -/
def ENV_KEYS (inst : String) : Option (String × String) :=
  if inst = "capitalone" then some ("CAPITALONE_USERNAME", "CAPITALONE_PASSWORD")
  else if inst = "macu" then some ("MACU_USERNAME", "MACU_PASSWORD")
  else if inst = "m1finance" then some ("M1_USERNAME", "M1_PASSWORD")
  else none

/-- One value of the `cfg` mapping built by `build_config`. -/
structure ConfigEntry where
  module : String
  username : String
  password : String
  output_directory : String
  output_format : String
deriving DecidableEq, Repr

/-- The diagnostic line `build_config` prints to stderr when an institution
is skipped for missing credentials. -/
def skipMsg (inst : String) : String :=
  "[finance-dl] No credentials for " ++ inst ++ ", skipping"

/-- What a run of `build_config` produces: the `cfg` dict (an
insertion-ordered association list), the stderr diagnostics, and the
directories created, each in program order. -/
structure BuildOut where
  cfg : List (String × ConfigEntry)
  logs : List String
  mkdirs : List String
deriving DecidableEq, Repr

/-- Membership test of a key in the `cfg` dict. -/
def dictContains (m : List (String × ConfigEntry)) (k : String) : Bool :=
  m.any (fun p => p.1 == k)

/-- `cfg[k] = v` on a Python dict: an existing key keeps its position and
gets the new value, a fresh key is appended. -/
def dictInsert (m : List (String × ConfigEntry)) (k : String) (v : ConfigEntry)
    : List (String × ConfigEntry) :=
  if dictContains m k then m.map (fun p => if p.1 = k then (k, v) else p)
  else m ++ [(k, v)]

/-- The entry `build_config` stores for an eligible institution `inst` whose
credential keys are `uk`, `pk`. -/
def mkEntry (env : Env) (downloads_dir inst uk pk : String) : ConfigEntry :=
  { module := (INSTITUTION_MODULES inst).getD ""
  , username := getenv env uk
  , password := getenv env pk
  , output_directory := ospath_join downloads_dir inst
  , output_format := "ofx" }

/-- The loop of `build_config`, with the `cfg` accumulator made explicit.
Per institution: unknown key → skipped with no diagnostic; a missing
credential half → diagnostic and skip; otherwise the output directory is
created and the entry stored. -/
def build_config_aux (env : Env) (insts : List String) (downloads_dir : String)
    (acc : List (String × ConfigEntry)) : BuildOut :=
  match insts with
  | [] => ⟨acc, [], []⟩
  | inst :: rest =>
    match ENV_KEYS inst with
    | none => build_config_aux env rest downloads_dir acc
    | some (uk, pk) =>
      if getenv env uk = "" ∨ getenv env pk = "" then
        let o := build_config_aux env rest downloads_dir acc
        ⟨o.cfg, skipMsg inst :: o.logs, o.mkdirs⟩
      else
        let o := build_config_aux env rest downloads_dir
          (dictInsert acc inst (mkEntry env downloads_dir inst uk pk))
        ⟨o.cfg, o.logs, ospath_join downloads_dir inst :: o.mkdirs⟩

/-- `build_config(institutions, downloads_dir)`. -/
def build_config (env : Env) (insts : List String) (downloads_dir : String) : BuildOut :=
  build_config_aux env insts downloads_dir []

/-- Eligibility of a session institution: its credential keys are known and
both resolve to non-empty values. -/
def eligible (env : Env) (inst : String) : Bool :=
  match ENV_KEYS inst with
  | none => false
  | some (uk, pk) => !(decide (getenv env uk = "" ∨ getenv env pk = ""))

/-- The JSON result the session pipeline prints. -/
inductive SessionResult where
  | error (message : String)
  | ok (config : String) (sources : List String)
deriving DecidableEq, Repr

/-- Fixed location of the synthesized config artifact. -/
def config_path : String := "/tmp/financedl_config.py"

/-- Full outcome of one session-pipeline invocation: printed result, process
exit code, the artifact written (path and serialized entries, in order), the
stderr diagnostics, and the directories created. -/
structure SessionOutcome where
  result : SessionResult
  exitCode : Nat
  artifact : Option (String × List (String × ConfigEntry))
  logs : List String
  mkdirs : List String

/-- The `__main__` block of `config.py`: empty mapping → error result, exit 1,
no artifact; otherwise the artifact is written and the ok result lists the
configured institutions in `cfg` key order. -/
def financedl_main (env : Env) (insts : List String) (downloads_dir : String)
    : SessionOutcome :=
  let o := build_config env insts downloads_dir
  if o.cfg = [] then
    ⟨.error "No credentials configured", 1, none, o.logs, o.mkdirs⟩
  else
    ⟨.ok config_path (o.cfg.map Prod.fst), 0, some (config_path, o.cfg),
      o.logs, o.mkdirs⟩

/-! ## `ofx/client.py` -/

/-- One entry of the `INSTITUTIONS` registry. -/
structure InstCfg where
  url : String
  fid : String
  org : String
  bankid : String
deriving DecidableEq, Repr

/-- `INSTITUTIONS` — static direct-connect registry. -/
def INSTITUTIONS (inst : String) : Option InstCfg :=
  if inst = "chase" then
    some ⟨"https://ofx.chase.com", "10898", "B1", "072000326"⟩
  else if inst = "usaa" then
    some ⟨"https://service2.usaa.com/ofx/OFXServer", "24591", "USAA", "314074269"⟩
  else none

/-- A broken-down local timestamp, as `datetime.now()` returns it. -/
structure LocalTime where
  year : Nat
  month : Nat
  day : Nat
  hour : Nat
  minute : Nat
  second : Nat
deriving DecidableEq, Repr

/-- Range constraints every Python `datetime` satisfies (Python caps years
at 9999, so `%Y` always renders exactly four digits). -/
def LocalTime.valid (t : LocalTime) : Prop :=
  1 ≤ t.year ∧ t.year ≤ 9999 ∧ 1 ≤ t.month ∧ t.month ≤ 12 ∧
  1 ≤ t.day ∧ t.day ≤ 31 ∧ t.hour ≤ 23 ∧ t.minute ≤ 59 ∧ t.second ≤ 59

instance (t : LocalTime) : Decidable t.valid := by
  unfold LocalTime.valid; infer_instance

/-- The decimal digit character for `n % 10`. -/
def digitChar (n : Nat) : Char :=
  Char.ofNat (48 + n % 10)

/-- Two-digit zero-padded rendering (`%m`, `%d`, `%H`, `%M`, `%S`); exact for
values below 100, which covers every valid `datetime` field. -/
def pad2 (n : Nat) : List Char :=
  [digitChar (n / 10), digitChar n]

/-- Four-digit zero-padded rendering (`%Y`); exact for years up to 9999. -/
def pad4 (n : Nat) : List Char :=
  [digitChar (n / 1000), digitChar (n / 100), digitChar (n / 10), digitChar n]

/-- `t.strftime "%Y%m%d_%H%M%S"`. -/
def strftimeTs (t : LocalTime) : String :=
  ⟨pad4 t.year ++ pad2 t.month ++ pad2 t.day ++ ['_'] ++
    pad2 t.hour ++ pad2 t.minute ++ pad2 t.second⟩

/-- ASCII decimal digit test. -/
def isDigitCh (c : Char) : Bool :=
  '0' ≤ c && c ≤ '9'

/-- Whether a string is a 14-digit timestamp in `YYYYMMDD_HHMMSS` shape:
eight digits, an underscore, six digits. -/
def tsFormatOk (s : String) : Bool :=
  match s.data with
  | [y1, y2, y3, y4, mo1, mo2, d1, d2, u, h1, h2, mi1, mi2, s1, s2] =>
    [y1, y2, y3, y4, mo1, mo2, d1, d2, h1, h2, mi1, mi2, s1, s2].all isDigitCh
      && (u == '_')
  | _ => false

/-- Arguments of the `OFXClient(...)` constructor call. -/
structure OFXClientCall where
  url : String
  userid : String
  userpass : String
  org : String
  fid : String
  version : Nat
deriving DecidableEq, Repr

/-- Arguments of the `StmtRq(...)` statement request.  The date endpoints
are UTC instants in seconds. -/
structure StmtRqCall where
  acctid : String
  accttype : String
  dtstart : Int
  dtend : Int
  bankid : String
deriving DecidableEq, Repr

/-- The dict `download_ofx` returns / `client.py` prints as JSON.  The
`institution` key is absent (`none`) in the results that omit it. -/
structure DownloadResult where
  success : Bool
  error : Option String
  files : List String
  institution : Option String
deriving DecidableEq, Repr

/-- Observable side effects of one `download_ofx` call: directories created,
protocol sessions constructed, statement requests issued, files written
(path and raw bytes). -/
structure DlEffects where
  mkdirs : List String
  sessions : List OFXClientCall
  requests : List StmtRqCall
  filesWritten : List (String × List Nat)
deriving DecidableEq, Repr

/-- No side effects at all. -/
def noEffects : DlEffects := ⟨[], [], [], []⟩

/-- `s.upper()` — ASCII uppercasing, character by character. -/
def strUpper (s : String) : String := ⟨s.data.map Char.toUpper⟩

/-- `timedelta(days := 1)` in seconds. -/
def secondsPerDay : Int := 86400

/-- Everything `client.py` reads from outside: whether `ofxtools` imported,
the environment, the two `datetime.now(UTC)` reads (in program order), the
local `datetime.now()` read used for the file name, and the outcome of
`client.request_statements` — either the response bytes or the message of
the exception it raises. -/
structure World where
  hasOfxtools : Bool
  env : Env
  tUtc1 : Int
  tUtc2 : Int
  tLocal : LocalTime
  netResponse : Except String (List Nat)

/-- `download_ofx(institution, username, password, days, output_dir)`. -/
def download_ofx (w : World) (institution username password : String)
    (days : Int) (output_dir : String) : DownloadResult × DlEffects :=
  if w.hasOfxtools = false then
    (⟨false, some "ofxtools not installed", [], none⟩, noEffects)
  else
    match INSTITUTIONS institution with
    | none =>
      (⟨false, some ("Unknown institution: " ++ institution), [], none⟩, noEffects)
    | some cfg =>
      let dtstart : Int := w.tUtc1 - days * secondsPerDay
      let dtend : Int := w.tUtc2
      let session : OFXClientCall :=
        ⟨cfg.url, username, password, cfg.org, cfg.fid, 220⟩
      let rq : StmtRqCall := ⟨"", "CHECKING", dtstart, dtend, cfg.bankid⟩
      match w.netResponse with
      | .ok bytes =>
        let fname := ospath_join output_dir
          (institution ++ "_" ++ strftimeTs w.tLocal ++ ".ofx")
        (⟨true, none, [fname], some institution⟩,
          ⟨[output_dir], [session], [rq], [(fname, bytes)]⟩)
      | .error e =>
        (⟨false, some e, [], some institution⟩,
          ⟨[output_dir], [session], [rq], []⟩)

/-- Full outcome of one direct-connect invocation: the JSON result printed,
the process exit code, and the side effects performed. -/
structure ClientOutcome where
  printed : DownloadResult
  exitCode : Nat
  effects : DlEffects

/-- The `__main__` block of `client.py`: read the credentials from
`<INSTITUTION_UPPER>_USERNAME` / `_PASSWORD`; if either is empty, print the
missing-credentials result and exit 1 without touching the network;
otherwise run `download_ofx` on `<output>/<institution>` and exit 0 exactly
when it succeeded. -/
def client_main (w : World) (institution : String) (days : Int)
    (output : String) : ClientOutcome :=
  let username := getenv w.env (strUpper institution ++ "_USERNAME")
  let password := getenv w.env (strUpper institution ++ "_PASSWORD")
  if username = "" ∨ password = "" then
    ⟨⟨false, some "Missing credentials", [], none⟩, 1, noEffects⟩
  else
    let r := download_ofx w institution username password days
      (ospath_join output institution)
    ⟨r.1, if r.1.success then 0 else 1, r.2⟩

/-! ## Helper lemmas about paths and strings -/

lemma string_ne_empty_iff (s : String) : s ≠ "" ↔ s.data ≠ [] := by
  constructor
  · intro h hd; exact h (String.ext hd)
  · intro h he; exact h (by rw [he])

lemma append_ne_empty_right (s t : String) (ht : t ≠ "") : s ++ t ≠ "" := by
  rw [string_ne_empty_iff, String.data_append]
  intro h
  rcases List.append_eq_nil.mp h with ⟨-, h2⟩
  exact (string_ne_empty_iff t).mp ht h2

lemma isabs_append (s t : String) (hs : s ≠ "") : isabs (s ++ t) = isabs s := by
  rcases hd : s.data with _ | ⟨c, l⟩
  · exact absurd hd ((string_ne_empty_iff s).mp hs)
  · simp [isabs, String.data_append, hd]

lemma endsWithSlash_append (s t : String) (ht : t ≠ "") :
    endsWithSlash (s ++ t) = endsWithSlash t := by
  have hd : t.data ≠ [] := (string_ne_empty_iff t).mp ht
  have : t.data.getLast? ≠ none := by
    intro h; exact hd (List.getLast?_eq_none_iff.mp h)
  rcases ho : t.data.getLast? with _ | c
  · exact absurd ho this
  · simp [endsWithSlash, String.data_append, List.getLast?_append, ho, Option.or]

lemma join_normal (a b : String) (ha : a ≠ "") (has : endsWithSlash a = false)
    (hb : isabs b = false) : ospath_join a b = a ++ "/" ++ b := by
  unfold ospath_join
  rw [if_neg (by simp [hb]), if_neg ha, if_neg (by simp [has])]

/-! ## Theorems about `ofx/client.py` -/

/-- C4: a direct-connect invocation whose username or password environment
variable is absent or empty prints the "Missing credentials" failure with an
empty file list, exits 1, and performs no side effect at all — in particular
no protocol session is constructed and no statement request is issued. -/
theorem client_missing_credentials (w : World) (institution : String)
    (days : Int) (output : String)
    (h : getenv w.env (strUpper institution ++ "_USERNAME") = "" ∨
         getenv w.env (strUpper institution ++ "_PASSWORD") = "") :
    (client_main w institution days output).printed =
      ⟨false, some "Missing credentials", [], none⟩ ∧
    (client_main w institution days output).exitCode = 1 ∧
    (client_main w institution days output).effects.sessions = [] ∧
    (client_main w institution days output).effects.requests = [] := by
  unfold client_main
  rw [if_pos h]
  exact ⟨rfl, rfl, rfl, rfl⟩

/-- Witness for `client_missing_credentials`: an environment with no `CHASE`
variables at all. -/
theorem client_missing_credentials_witness :
    (getenv (fun _ => none) (strUpper "chase" ++ "_USERNAME") = "" ∨
     getenv (fun _ => none) (strUpper "chase" ++ "_PASSWORD") = "") ∧
    (client_main ⟨true, fun _ => none, 0, 0, ⟨2026, 1, 2, 3, 4, 5⟩, .ok []⟩
        "chase" 30 "/app/downloads").printed =
      ⟨false, some "Missing credentials", [], none⟩ ∧
    (client_main ⟨true, fun _ => none, 0, 0, ⟨2026, 1, 2, 3, 4, 5⟩, .ok []⟩
        "chase" 30 "/app/downloads").exitCode = 1 ∧
    (client_main ⟨true, fun _ => none, 0, 0, ⟨2026, 1, 2, 3, 4, 5⟩, .ok []⟩
        "chase" 30 "/app/downloads").effects.sessions = [] ∧
    (client_main ⟨true, fun _ => none, 0, 0, ⟨2026, 1, 2, 3, 4, 5⟩, .ok []⟩
        "chase" 30 "/app/downloads").effects.requests = [] :=
  ⟨Or.inl rfl,
   client_missing_credentials ⟨true, fun _ => none, 0, 0, ⟨2026, 1, 2, 3, 4, 5⟩, .ok []⟩
     "chase" 30 "/app/downloads" (Or.inl rfl)⟩

/-- C5: with the protocol library importable, `download_ofx` on an identity
outside the static registry returns the unknown-institution failure and has
no side effect: no directory, session, request or file. -/
theorem download_unknown_institution (w : World) (inst username password : String)
    (days : Int) (output_dir : String)
    (hofx : w.hasOfxtools = true) (hinst : INSTITUTIONS inst = none) :
    (download_ofx w inst username password days output_dir).1 =
      ⟨false, some ("Unknown institution: " ++ inst), [], none⟩ ∧
    (download_ofx w inst username password days output_dir).2.sessions = [] ∧
    (download_ofx w inst username password days output_dir).2.requests = [] := by
  unfold download_ofx
  rw [hofx]
  simp only [hinst]
  exact ⟨rfl, rfl, rfl⟩

/-- Witness for `download_unknown_institution`, at identity "wellsfargo". -/
theorem download_unknown_institution_witness :
    (INSTITUTIONS "wellsfargo" = none) ∧
    (download_ofx ⟨true, fun _ => none, 0, 0, ⟨2026, 1, 2, 3, 4, 5⟩, .ok []⟩
        "wellsfargo" "u" "p" 30 "/o").1 =
      ⟨false, some ("Unknown institution: " ++ "wellsfargo"), [], none⟩ ∧
    (download_ofx ⟨true, fun _ => none, 0, 0, ⟨2026, 1, 2, 3, 4, 5⟩, .ok []⟩
        "wellsfargo" "u" "p" 30 "/o").2.sessions = [] ∧
    (download_ofx ⟨true, fun _ => none, 0, 0, ⟨2026, 1, 2, 3, 4, 5⟩, .ok []⟩
        "wellsfargo" "u" "p" 30 "/o").2.requests = [] :=
  ⟨rfl,
   download_unknown_institution ⟨true, fun _ => none, 0, 0, ⟨2026, 1, 2, 3, 4, 5⟩, .ok []⟩
     "wellsfargo" "u" "p" 30 "/o" rfl rfl⟩

/-- A concrete environment holding complete Chase credentials. -/
def envChase : Env := fun k =>
  if k = "CHASE_USERNAME" then some "u"
  else if k = "CHASE_PASSWORD" then some "p"
  else none

/-- A concrete local timestamp. -/
def timeA : LocalTime := ⟨2026, 10, 12, 3, 4, 5⟩

/-- A world whose wall clock advances one second between the two
`datetime.now(UTC)` reads of `download_ofx`. -/
def wTick : World := ⟨true, envChase, 0, 1, timeA, .ok []⟩

/-- C9 counterexample: the code reads the clock once for `dtstart` and again
for `dtend`; when one second elapses between the reads, the issued request
has `dtstart ≠ dtend − 30 days`, refuting the claimed exact equation. -/
theorem stmt_window_counterexample :
    (download_ofx wTick "chase" "u" "p" 30 "/o").2.requests.map StmtRqCall.dtstart
      = [(-2592000 : Int)] ∧
    (download_ofx wTick "chase" "u" "p" 30 "/o").2.requests.map StmtRqCall.dtend
      = [(1 : Int)] ∧
    (-2592000 : Int) ≠ (1 : Int) - 30 * secondsPerDay := by
  refine ⟨rfl, rfl, by decide⟩

/-- C9 (amended): the single statement request issued by `download_ofx` has
`dtstart` equal to the first UTC clock read minus `days` days and `dtend`
equal to the second, later, UTC clock read; whenever the two reads coincide,
`dtstart = dtend − days` days, as the claim states. -/
theorem stmt_window_amended (w : World) (inst username password : String)
    (days : Int) (output_dir : String) (cfg : InstCfg)
    (hofx : w.hasOfxtools = true) (hc : INSTITUTIONS inst = some cfg) :
    (download_ofx w inst username password days output_dir).2.requests.map
        StmtRqCall.dtstart = [w.tUtc1 - days * secondsPerDay] ∧
    (download_ofx w inst username password days output_dir).2.requests.map
        StmtRqCall.dtend = [w.tUtc2] ∧
    (w.tUtc1 = w.tUtc2 →
      (download_ofx w inst username password days output_dir).2.requests.map
        StmtRqCall.dtstart = [w.tUtc2 - days * secondsPerDay]) := by
  unfold download_ofx
  rw [hofx]
  simp only [hc]
  cases hn : w.netResponse with
  | ok bytes => exact ⟨rfl, rfl, fun h => by rw [← h]; rfl⟩
  | error e => exact ⟨rfl, rfl, fun h => by rw [← h]; rfl⟩

/-- Witness for `stmt_window_amended`: a world whose two UTC reads agree. -/
theorem stmt_window_amended_witness :
    ((⟨true, envChase, 7, 7, timeA, .ok []⟩ : World).hasOfxtools = true) ∧
    (INSTITUTIONS "usaa" =
      some ⟨"https://service2.usaa.com/ofx/OFXServer", "24591", "USAA", "314074269"⟩) ∧
    (download_ofx ⟨true, envChase, 7, 7, timeA, .ok []⟩ "usaa" "u" "p" 30 "/o").2.requests.map
        StmtRqCall.dtstart = [(7 : Int) - 30 * secondsPerDay] ∧
    (download_ofx ⟨true, envChase, 7, 7, timeA, .ok []⟩ "usaa" "u" "p" 30 "/o").2.requests.map
        StmtRqCall.dtend = [(7 : Int)] :=
  ⟨rfl, rfl,
   (stmt_window_amended ⟨true, envChase, 7, 7, timeA, .ok []⟩ "usaa" "u" "p" 30 "/o"
      ⟨"https://service2.usaa.com/ofx/OFXServer", "24591", "USAA", "314074269"⟩ rfl rfl).1,
   (stmt_window_amended ⟨true, envChase, 7, 7, timeA, .ok []⟩ "usaa" "u" "p" 30 "/o"
      ⟨"https://service2.usaa.com/ofx/OFXServer", "24591", "USAA", "314074269"⟩ rfl rfl).2.1⟩

/-- A world in which the protocol session raises an exception whose message
is the empty string. -/
def wEmptyErr : World := ⟨true, envChase, 100, 100, timeA, .error ""⟩

/-- C6 counterexample: when the protocol session raises an exception whose
`str` is empty, the printed failure result carries `error = ""` — a failure
without a non-empty error message, refuting the claimed invariant. -/
theorem download_invariant_counterexample :
    (client_main wEmptyErr "chase" 30 "/app/downloads").printed.success = false ∧
    (client_main wEmptyErr "chase" 30 "/app/downloads").printed.error = some "" := by
  exact ⟨rfl, rfl⟩

lemma append_ne_empty_left (s t : String) (hs : s ≠ "") : s ++ t ≠ "" := by
  rw [string_ne_empty_iff, String.data_append]
  intro h
  rcases List.append_eq_nil.mp h with ⟨h1, -⟩
  exact (string_ne_empty_iff s).mp hs h1

/-- C6 (amended): every result printed by the direct-connect pipeline has a
non-empty file list when `success` is true; when `success` is false it
carries an error message that is present and non-empty, provided the message
of any exception the protocol session raises is itself non-empty (all
internally generated messages are non-empty unconditionally). -/
theorem download_result_invariant_amended (w : World) (institution : String)
    (days : Int) (output : String)
    (hnet : ∀ m, w.netResponse = .error m → m ≠ "") :
    ((client_main w institution days output).printed.success = true →
      (client_main w institution days output).printed.files ≠ []) ∧
    ((client_main w institution days output).printed.success = false →
      (client_main w institution days output).printed.error ≠ none ∧
      (client_main w institution days output).printed.error ≠ some "") := by
  unfold client_main
  by_cases hcred : getenv w.env (strUpper institution ++ "_USERNAME") = "" ∨
      getenv w.env (strUpper institution ++ "_PASSWORD") = ""
  · rw [if_pos hcred]
    exact ⟨fun h => by simp at h, fun _ => ⟨by simp, by simp⟩⟩
  · rw [if_neg hcred]
    unfold download_ofx
    by_cases hofx : w.hasOfxtools = false
    · rw [if_pos hofx]
      exact ⟨fun h => by simp at h, fun _ => ⟨by simp, by simp⟩⟩
    · rw [if_neg hofx]
      cases hi : INSTITUTIONS institution with
      | none =>
        refine ⟨fun h => by simp at h, fun _ => ⟨by simp, fun h => ?_⟩⟩
        rw [Option.some_inj] at h
        exact append_ne_empty_left _ _ (by decide) h
      | some cfg =>
        cases hn : w.netResponse with
        | ok bytes => exact ⟨fun _ => by simp, fun h => by simp at h⟩
        | error e =>
          refine ⟨fun h => by simp at h, fun _ => ⟨by simp, fun h => ?_⟩⟩
          rw [Option.some_inj] at h
          exact hnet e hn h

/-- Witness for `download_result_invariant_amended`: a concrete failing run
whose protocol error message is "rejected". -/
theorem download_result_invariant_amended_witness :
    (client_main ⟨true, envChase, 0, 0, timeA, .error "rejected"⟩
        "chase" 30 "/d").printed.success = false ∧
    (client_main ⟨true, envChase, 0, 0, timeA, .error "rejected"⟩
        "chase" 30 "/d").printed.error ≠ none ∧
    (client_main ⟨true, envChase, 0, 0, timeA, .error "rejected"⟩
        "chase" 30 "/d").printed.error ≠ some "" :=
  ⟨rfl,
   (download_result_invariant_amended ⟨true, envChase, 0, 0, timeA, .error "rejected"⟩
      "chase" 30 "/d"
      (fun m h => by injection h with h'; rw [← h']; decide)).2 rfl⟩

lemma client_exit_reflects (w : World) (institution : String) (days : Int)
    (output : String) :
    (client_main w institution days output).exitCode =
      if (client_main w institution days output).printed.success = true then 0 else 1 := by
  unfold client_main
  by_cases hcred : getenv w.env (strUpper institution ++ "_USERNAME") = "" ∨
      getenv w.env (strUpper institution ++ "_PASSWORD") = ""
  · rw [if_pos hcred]; rfl
  · rw [if_neg hcred]

/-- C8: a failure raised during the direct-connect request/response exchange
is caught and becomes a printed failure result carrying exactly the
underlying message, with exit code 1; moreover, in either pipeline, any
invocation that exits non-zero has printed an explicit error-shaped result
(failure flag, or error status) — no failure path skips the result. -/
theorem client_protocol_error_converted (w : World) (institution : String)
    (days : Int) (output : String) (e : String) (cfg : InstCfg)
    (hofx : w.hasOfxtools = true)
    (hc : INSTITUTIONS institution = some cfg)
    (hu : getenv w.env (strUpper institution ++ "_USERNAME") ≠ "")
    (hp : getenv w.env (strUpper institution ++ "_PASSWORD") ≠ "")
    (hnet : w.netResponse = .error e) :
    (client_main w institution days output).printed =
      ⟨false, some e, [], some institution⟩ ∧
    (client_main w institution days output).exitCode = 1 ∧
    (∀ w' i' d' o', (client_main w' i' d' o').exitCode ≠ 0 →
      (client_main w' i' d' o').printed.success = false) ∧
    (∀ env' insts' dd', (financedl_main env' insts' dd').exitCode ≠ 0 →
      (financedl_main env' insts' dd').result = .error "No credentials configured") := by
  refine ⟨?_, ?_, ?_, ?_⟩
  · unfold client_main
    rw [if_neg (not_or.mpr ⟨hu, hp⟩)]
    unfold download_ofx
    rw [hofx, hc, hnet]
    rfl
  · unfold client_main
    rw [if_neg (not_or.mpr ⟨hu, hp⟩)]
    unfold download_ofx
    rw [hofx, hc, hnet]
    rfl
  · intro w' i' d' o' hne
    rw [client_exit_reflects] at hne
    by_cases hs : (client_main w' i' d' o').printed.success = true
    · rw [if_pos hs] at hne; exact absurd rfl hne
    · simpa using hs
  · intro env' insts' dd' hne
    unfold financedl_main at hne ⊢
    by_cases hz : (build_config env' insts' dd').cfg = []
    · rw [if_pos hz]
    · rw [if_neg hz] at hne; exact absurd rfl hne

/-- Witness for `client_protocol_error_converted`: a chase run whose
request/response exchange raises "Connection refused". -/
theorem client_protocol_error_converted_witness :
    ((⟨true, envChase, 0, 0, timeA, .error "Connection refused"⟩ : World).hasOfxtools
        = true) ∧
    ((⟨true, envChase, 0, 0, timeA, .error "Connection refused"⟩ : World).netResponse
        = .error "Connection refused") ∧
    (client_main ⟨true, envChase, 0, 0, timeA, .error "Connection refused"⟩
        "chase" 30 "/d").printed =
      ⟨false, some "Connection refused", [], some "chase"⟩ ∧
    (client_main ⟨true, envChase, 0, 0, timeA, .error "Connection refused"⟩
        "chase" 30 "/d").exitCode = 1 :=
  ⟨rfl, rfl,
   (client_protocol_error_converted ⟨true, envChase, 0, 0, timeA, .error "Connection refused"⟩
      "chase" 30 "/d" "Connection refused"
      ⟨"https://ofx.chase.com", "10898", "B1", "072000326"⟩
      rfl rfl (by decide) (by decide) rfl).1,
   (client_protocol_error_converted ⟨true, envChase, 0, 0, timeA, .error "Connection refused"⟩
      "chase" 30 "/d" "Connection refused"
      ⟨"https://ofx.chase.com", "10898", "B1", "072000326"⟩
      rfl rfl (by decide) (by decide) rfl).2.1⟩

/-! ## Theorems about `financedl/config.py` -/

lemma eligible_of_env_keys_none (env : Env) (inst : String)
    (h : ENV_KEYS inst = none) : eligible env inst = false := by
  unfold eligible
  rw [h]

lemma eligible_of_missing_half (env : Env) (inst uk pk : String)
    (hk : ENV_KEYS inst = some (uk, pk))
    (hc : getenv env uk = "" ∨ getenv env pk = "") : eligible env inst = false := by
  unfold eligible
  rw [hk]
  simp [hc]

lemma eligible_of_both (env : Env) (inst uk pk : String)
    (hk : ENV_KEYS inst = some (uk, pk))
    (hc : ¬(getenv env uk = "" ∨ getenv env pk = "")) : eligible env inst = true := by
  unfold eligible
  rw [hk]
  simp [hc]

lemma build_aux_cfg_of_none_eligible (env : Env) (dd : String) :
    ∀ (insts : List String) (acc : List (String × ConfigEntry)),
      (∀ i ∈ insts, eligible env i = false) →
      (build_config_aux env insts dd acc).cfg = acc := by
  intro insts
  induction insts with
  | nil => intro acc _; rfl
  | cons inst rest ih =>
    intro acc h
    have hrest : ∀ i ∈ rest, eligible env i = false :=
      fun i hi => h i (List.mem_cons_of_mem _ hi)
    unfold build_config_aux
    cases hk : ENV_KEYS inst with
    | none => exact ih acc hrest
    | some kp =>
      obtain ⟨uk, pk⟩ := kp
      dsimp only
      by_cases hc : getenv env uk = "" ∨ getenv env pk = ""
      · rw [if_pos hc]
        exact ih acc hrest
      · have := h inst (List.mem_cons_self _ _)
        rw [eligible_of_both env inst uk pk hk hc] at this
        cases this

/-- C2: when no requested institution has both credential variables set to
non-empty values, the session pipeline prints the error status, exits 1 and
writes no config artifact. -/
theorem financedl_no_creds_error (env : Env) (insts : List String) (dd : String)
    (h : ∀ i ∈ insts, eligible env i = false) :
    (financedl_main env insts dd).result = .error "No credentials configured" ∧
    (financedl_main env insts dd).exitCode = 1 ∧
    (financedl_main env insts dd).artifact = none := by
  have hc : (build_config env insts dd).cfg = [] :=
    build_aux_cfg_of_none_eligible env dd insts [] h
  unfold financedl_main
  rw [if_pos hc]
  exact ⟨rfl, rfl, rfl⟩

/-- Witness for `financedl_no_creds_error`: requesting all three session
institutions in an environment holding only a username half for capitalone. -/
theorem financedl_no_creds_error_witness :
    (∀ i ∈ ["capitalone", "macu", "m1finance"],
      eligible (fun k => if k = "CAPITALONE_USERNAME" then some "u" else none) i
        = false) ∧
    (financedl_main (fun k => if k = "CAPITALONE_USERNAME" then some "u" else none)
        ["capitalone", "macu", "m1finance"] "/app/downloads").result =
      .error "No credentials configured" ∧
    (financedl_main (fun k => if k = "CAPITALONE_USERNAME" then some "u" else none)
        ["capitalone", "macu", "m1finance"] "/app/downloads").exitCode = 1 ∧
    (financedl_main (fun k => if k = "CAPITALONE_USERNAME" then some "u" else none)
        ["capitalone", "macu", "m1finance"] "/app/downloads").artifact = none :=
  ⟨by intro i hi; fin_cases hi <;> rfl,
   financedl_no_creds_error (fun k => if k = "CAPITALONE_USERNAME" then some "u" else none)
     ["capitalone", "macu", "m1finance"] "/app/downloads"
     (by intro i hi; fin_cases hi <;> rfl)⟩

lemma dictInsert_fresh (m : List (String × ConfigEntry)) (k : String) (v : ConfigEntry)
    (h : k ∉ m.map Prod.fst) : dictInsert m k v = m ++ [(k, v)] := by
  unfold dictInsert
  rw [if_neg]
  intro hcont
  unfold dictContains at hcont
  rw [List.any_eq_true] at hcont
  obtain ⟨p, hp, he⟩ := hcont
  rw [beq_iff_eq] at he
  exact h (List.mem_map.mpr ⟨p, hp, he⟩)

lemma build_aux_keys (env : Env) (dd : String) :
    ∀ (insts : List String) (acc : List (String × ConfigEntry)),
      insts.Nodup → (∀ k ∈ acc.map Prod.fst, k ∉ insts) →
      (build_config_aux env insts dd acc).cfg.map Prod.fst =
        acc.map Prod.fst ++ insts.filter (fun i => eligible env i) := by
  intro insts
  induction insts with
  | nil => intro acc _ _; simp [build_config_aux]
  | cons inst rest ih =>
    intro acc hnd hdis
    have hnd' : rest.Nodup := (List.nodup_cons.mp hnd).2
    have hni : inst ∉ rest := (List.nodup_cons.mp hnd).1
    unfold build_config_aux
    cases hk : ENV_KEYS inst with
    | none =>
      have hel : eligible env inst = false := eligible_of_env_keys_none env inst hk
      rw [ih acc hnd' (fun k hkk hr => hdis k hkk (List.mem_cons_of_mem _ hr))]
      simp [List.filter_cons, hel]
    | some kp =>
      obtain ⟨uk, pk⟩ := kp
      dsimp only
      by_cases hc : getenv env uk = "" ∨ getenv env pk = ""
      · have hel : eligible env inst = false := eligible_of_missing_half env inst uk pk hk hc
        rw [if_pos hc]
        dsimp only
        rw [ih acc hnd' (fun k hkk hr => hdis k hkk (List.mem_cons_of_mem _ hr))]
        simp [List.filter_cons, hel]
      · have hel : eligible env inst = true := eligible_of_both env inst uk pk hk hc
        have hfresh : inst ∉ acc.map Prod.fst :=
          fun hx => hdis inst hx (List.mem_cons_self _ _)
        rw [if_neg hc]
        dsimp only
        rw [dictInsert_fresh acc inst _ hfresh]
        rw [ih (acc ++ [(inst, mkEntry env dd inst uk pk)]) hnd' ?hdis2]
        case hdis2 =>
          intro k hkk
          rw [List.map_append, List.mem_append] at hkk
          rcases hkk with hkk | hkk
          · exact fun hr => hdis k hkk (List.mem_cons_of_mem _ hr)
          · simp at hkk
            subst hkk
            exact hni
        simp [List.filter_cons, hel]

/-- C1: for a duplicate-free request list containing at least one
institution with both credentials set, the session pipeline's result is the
ok status whose `sources` equals exactly the requested institutions filtered
by eligibility, in requested order. -/
theorem financedl_sources_eq_filter (env : Env) (insts : List String) (dd : String)
    (hnd : insts.Nodup)
    (hone : ∃ i ∈ insts, eligible env i = true) :
    (financedl_main env insts dd).result =
      .ok config_path (insts.filter (fun i => eligible env i)) := by
  have hkeys : (build_config env insts dd).cfg.map Prod.fst =
      insts.filter (fun i => eligible env i) := by
    have h := build_aux_keys env dd insts [] hnd (by simp)
    simpa [build_config] using h
  have hne : ¬((build_config env insts dd).cfg = []) := by
    intro h0
    obtain ⟨i, hi, he⟩ := hone
    have hmem : i ∈ insts.filter (fun i => eligible env i) :=
      List.mem_filter.mpr ⟨hi, he⟩
    rw [← hkeys, h0] at hmem
    simp at hmem
  unfold financedl_main
  rw [if_neg hne]
  dsimp only
  rw [hkeys]

/-- A concrete environment holding complete capitalone credentials only. -/
def envCap : Env := fun k =>
  if k = "CAPITALONE_USERNAME" then some "u"
  else if k = "CAPITALONE_PASSWORD" then some "p"
  else none

/-- Witness for `financedl_sources_eq_filter`: requesting
`["capitalone", "macu"]` under `envCap` yields sources `["capitalone"]`. -/
theorem financedl_sources_eq_filter_witness :
    (["capitalone", "macu"] : List String).Nodup ∧
    (financedl_main envCap ["capitalone", "macu"] "/tmp/x").result =
      .ok config_path ["capitalone"] :=
  ⟨by decide,
   financedl_sources_eq_filter envCap ["capitalone", "macu"] "/tmp/x" (by decide)
     ⟨"capitalone", by simp, rfl⟩⟩

lemma mem_dictInsert_self (m : List (String × ConfigEntry)) (k : String)
    (v : ConfigEntry) : (k, v) ∈ dictInsert m k v := by
  unfold dictInsert
  by_cases h : dictContains m k = true
  · rw [if_pos h]
    unfold dictContains at h
    rw [List.any_eq_true] at h
    obtain ⟨p, hp, he⟩ := h
    rw [beq_iff_eq] at he
    exact List.mem_map.mpr ⟨p, hp, by rw [if_pos he]⟩
  · rw [if_neg h]
    exact List.mem_append_right _ (by simp)

lemma mem_dictInsert_of_ne (m : List (String × ConfigEntry)) (j : String)
    (v : ConfigEntry) (k : String) (v' : ConfigEntry)
    (hm : (j, v) ∈ m) (hne : j ≠ k) : (j, v) ∈ dictInsert m k v' := by
  unfold dictInsert
  by_cases h : dictContains m k = true
  · rw [if_pos h]
    exact List.mem_map.mpr ⟨(j, v), hm, by rw [if_neg hne]⟩
  · rw [if_neg h]
    exact List.mem_append_left _ hm

lemma env_keys_cases (inst : String) (kp : String × String)
    (h : ENV_KEYS inst = some kp) :
    inst = "capitalone" ∨ inst = "macu" ∨ inst = "m1finance" := by
  unfold ENV_KEYS at h
  split_ifs at h with h1 h2 h3
  · exact Or.inl h1
  · exact Or.inr (Or.inl h2)
  · exact Or.inr (Or.inr h3)

lemma build_aux_mem (env : Env) (dd inst uk pk : String)
    (hk : ENV_KEYS inst = some (uk, pk))
    (hcond : ¬(getenv env uk = "" ∨ getenv env pk = "")) :
    ∀ (insts : List String) (acc : List (String × ConfigEntry)),
      (inst ∈ insts ∨ (inst, mkEntry env dd inst uk pk) ∈ acc) →
      (inst, mkEntry env dd inst uk pk) ∈ (build_config_aux env insts dd acc).cfg := by
  intro insts
  induction insts with
  | nil =>
    intro acc h
    rcases h with h | h
    · simp at h
    · simpa [build_config_aux] using h
  | cons j rest ih =>
    intro acc h
    unfold build_config_aux
    cases hkj : ENV_KEYS j with
    | none =>
      refine ih acc ?_
      rcases h with h | h
      · rcases List.mem_cons.mp h with heq | hr
        · rw [← heq] at hkj
          rw [hk] at hkj
          cases hkj
        · exact Or.inl hr
      · exact Or.inr h
    | some kpj =>
      obtain ⟨uj, pj⟩ := kpj
      dsimp only
      by_cases hcj : getenv env uj = "" ∨ getenv env pj = ""
      · rw [if_pos hcj]
        dsimp only
        refine ih acc ?_
        rcases h with h | h
        · rcases List.mem_cons.mp h with heq | hr
          · exfalso
            rw [← heq] at hkj
            rw [hk] at hkj
            injection hkj with hpair
            injection hpair with h1 h2
            subst h1
            subst h2
            exact hcond hcj
          · exact Or.inl hr
        · exact Or.inr h
      · rw [if_neg hcj]
        dsimp only
        refine ih (dictInsert acc j (mkEntry env dd j uj pj)) ?_
        by_cases hji : inst = j
        · subst hji
          rw [hk] at hkj
          injection hkj with hpair
          injection hpair with h1 h2
          subst h1
          subst h2
          exact Or.inr (mem_dictInsert_self acc inst (mkEntry env dd inst uk pk))
        · rcases h with h | h
          · rcases List.mem_cons.mp h with heq | hr
            · exact absurd heq hji
            · exact Or.inl hr
          · exact Or.inr (mem_dictInsert_of_ne acc inst _ j _ h hji)

/-- C7: for an eligible requested institution, the written artifact holds an
entry for it whose output_format is exactly "ofx", whose output_directory is
`<downloads_dir>/<institution>`, and which carries the adapter module
reference and both credential values. -/
theorem financedl_artifact_entry (env : Env) (insts : List String)
    (dd inst uk pk : String)
    (hin : inst ∈ insts)
    (hk : ENV_KEYS inst = some (uk, pk))
    (hu : getenv env uk ≠ "") (hp : getenv env pk ≠ "")
    (hdne : dd ≠ "") (hds : endsWithSlash dd = false) :
    (financedl_main env insts dd).artifact =
      some (config_path, (build_config env insts dd).cfg) ∧
    (inst, mkEntry env dd inst uk pk) ∈ (build_config env insts dd).cfg ∧
    (mkEntry env dd inst uk pk).output_format = "ofx" ∧
    (mkEntry env dd inst uk pk).output_directory = dd ++ "/" ++ inst ∧
    (mkEntry env dd inst uk pk).module = (INSTITUTION_MODULES inst).getD "" ∧
    (mkEntry env dd inst uk pk).username = getenv env uk ∧
    (mkEntry env dd inst uk pk).password = getenv env pk := by
  have hcond : ¬(getenv env uk = "" ∨ getenv env pk = "") := not_or.mpr ⟨hu, hp⟩
  have hmem : (inst, mkEntry env dd inst uk pk) ∈ (build_config env insts dd).cfg :=
    build_aux_mem env dd inst uk pk hk hcond insts [] (Or.inl hin)
  have habs : isabs inst = false := by
    rcases env_keys_cases inst (uk, pk) hk with h | h | h <;> (subst h; decide)
  have hne : ¬((build_config env insts dd).cfg = []) :=
    fun h0 => List.ne_nil_of_mem hmem h0
  refine ⟨?_, hmem, rfl, ?_, rfl, rfl, rfl⟩
  · unfold financedl_main
    rw [if_neg hne]
  · show ospath_join dd inst = dd ++ "/" ++ inst
    exact join_normal dd inst hdne hds habs

/-- Witness for `financedl_artifact_entry`: capitalone under `envCap` with
downloads directory "/tmp/x". -/
theorem financedl_artifact_entry_witness :
    ("capitalone" ∈ (["capitalone", "macu"] : List String)) ∧
    (ENV_KEYS "capitalone" = some ("CAPITALONE_USERNAME", "CAPITALONE_PASSWORD")) ∧
    (financedl_main envCap ["capitalone", "macu"] "/tmp/x").artifact =
      some (config_path, (build_config envCap ["capitalone", "macu"] "/tmp/x").cfg) ∧
    ("capitalone",
      mkEntry envCap "/tmp/x" "capitalone" "CAPITALONE_USERNAME" "CAPITALONE_PASSWORD")
        ∈ (build_config envCap ["capitalone", "macu"] "/tmp/x").cfg ∧
    (mkEntry envCap "/tmp/x" "capitalone" "CAPITALONE_USERNAME"
      "CAPITALONE_PASSWORD").output_format = "ofx" ∧
    (mkEntry envCap "/tmp/x" "capitalone" "CAPITALONE_USERNAME"
      "CAPITALONE_PASSWORD").output_directory = "/tmp/x" ++ "/" ++ "capitalone" :=
  ⟨by simp, rfl,
   (financedl_artifact_entry envCap ["capitalone", "macu"] "/tmp/x" "capitalone"
      "CAPITALONE_USERNAME" "CAPITALONE_PASSWORD" (by simp) rfl (by decide) (by decide)
      (by decide) rfl).1,
   (financedl_artifact_entry envCap ["capitalone", "macu"] "/tmp/x" "capitalone"
      "CAPITALONE_USERNAME" "CAPITALONE_PASSWORD" (by simp) rfl (by decide) (by decide)
      (by decide) rfl).2.1,
   (financedl_artifact_entry envCap ["capitalone", "macu"] "/tmp/x" "capitalone"
      "CAPITALONE_USERNAME" "CAPITALONE_PASSWORD" (by simp) rfl (by decide) (by decide)
      (by decide) rfl).2.2.1,
   (financedl_artifact_entry envCap ["capitalone", "macu"] "/tmp/x" "capitalone"
      "CAPITALONE_USERNAME" "CAPITALONE_PASSWORD" (by simp) rfl (by decide) (by decide)
      (by decide) rfl).2.2.2.1⟩

lemma skipMsg_inj (i j : String) (h : skipMsg i = skipMsg j) : i = j := by
  unfold skipMsg at h
  have hd := congrArg String.data h
  rw [String.data_append, String.data_append, String.data_append,
    String.data_append] at hd
  exact String.ext (List.append_cancel_left (List.append_cancel_right hd))

lemma build_aux_logs (env : Env) (dd : String) :
    ∀ (insts : List String) (acc : List (String × ConfigEntry)),
      ∀ m ∈ (build_config_aux env insts dd acc).logs,
        ∃ j kp, ENV_KEYS j = some kp ∧ m = skipMsg j := by
  intro insts
  induction insts with
  | nil => intro acc m hm; simp [build_config_aux] at hm
  | cons inst rest ih =>
    intro acc m hm
    unfold build_config_aux at hm
    cases hk : ENV_KEYS inst with
    | none =>
      rw [hk] at hm
      exact ih acc m hm
    | some kp =>
      obtain ⟨uk, pk⟩ := kp
      rw [hk] at hm
      dsimp only at hm
      by_cases hc : getenv env uk = "" ∨ getenv env pk = ""
      · rw [if_pos hc] at hm
        dsimp only at hm
        rcases List.mem_cons.mp hm with heq | hr
        · exact ⟨inst, (uk, pk), hk, heq⟩
        · exact ih acc m hr
      · rw [if_neg hc] at hm
        dsimp only at hm
        exact ih _ m hm

lemma mem_keys_dictInsert (m : List (String × ConfigEntry)) (k x : String)
    (v : ConfigEntry) (hx : x ∈ (dictInsert m k v).map Prod.fst) :
    x ∈ m.map Prod.fst ∨ x = k := by
  unfold dictInsert at hx
  by_cases h : dictContains m k = true
  · rw [if_pos h] at hx
    obtain ⟨q, hq, hqe⟩ := List.mem_map.mp hx
    obtain ⟨p, hp, hpe⟩ := List.mem_map.mp hq
    by_cases hpk : p.1 = k
    · rw [if_pos hpk] at hpe
      right
      rw [← hqe, ← hpe]
    · rw [if_neg hpk] at hpe
      left
      rw [← hqe, ← hpe]
      exact List.mem_map.mpr ⟨p, hp, rfl⟩
  · rw [if_neg h] at hx
    rw [List.map_append, List.mem_append] at hx
    rcases hx with h1 | h1
    · exact Or.inl h1
    · simp at h1
      exact Or.inr h1

lemma build_aux_no_unknown_key (env : Env) (dd inst : String)
    (hk : ENV_KEYS inst = none) :
    ∀ (insts : List String) (acc : List (String × ConfigEntry)),
      inst ∉ acc.map Prod.fst →
      inst ∉ (build_config_aux env insts dd acc).cfg.map Prod.fst := by
  intro insts
  induction insts with
  | nil => intro acc hacc; simpa [build_config_aux] using hacc
  | cons j rest ih =>
    intro acc hacc
    unfold build_config_aux
    cases hkj : ENV_KEYS j with
    | none => exact ih acc hacc
    | some kpj =>
      obtain ⟨uj, pj⟩ := kpj
      dsimp only
      by_cases hcj : getenv env uj = "" ∨ getenv env pj = ""
      · rw [if_pos hcj]
        dsimp only
        exact ih acc hacc
      · rw [if_neg hcj]
        dsimp only
        refine ih _ ?_
        intro hx
        rcases mem_keys_dictInsert acc j inst (mkEntry env dd j uj pj) hx with h1 | h1
        · exact hacc h1
        · subst h1
          rw [hk] at hkj
          cases hkj

/-- C10: a requested identity outside the session registry is silently
skipped — no stderr diagnostic line is ever the skip message for it, it is
absent from the artifact's configuration mapping, and absent from the
`sources` of an ok result. -/
theorem financedl_unknown_inst_silent (env : Env) (insts : List String)
    (dd inst : String) (hk : ENV_KEYS inst = none) :
    (∀ m ∈ (financedl_main env insts dd).logs, m ≠ skipMsg inst) ∧
    (∀ p entries, (financedl_main env insts dd).artifact = some (p, entries) →
      inst ∉ entries.map Prod.fst) ∧
    (∀ p srcs, (financedl_main env insts dd).result = .ok p srcs →
      inst ∉ srcs) := by
  have hlogs : ∀ m ∈ (build_config env insts dd).logs, m ≠ skipMsg inst := by
    intro m hm heq
    obtain ⟨j, kp, hkj, hmsg⟩ := build_aux_logs env dd insts [] m hm
    rw [hmsg] at heq
    rw [skipMsg_inj j inst heq, hk] at hkj
    cases hkj
  have hkeys : inst ∉ (build_config env insts dd).cfg.map Prod.fst :=
    build_aux_no_unknown_key env dd inst hk insts [] (by simp)
  unfold financedl_main
  by_cases hz : (build_config env insts dd).cfg = []
  · rw [if_pos hz]
    refine ⟨hlogs, ?_, ?_⟩
    · intro p entries h
      cases h
    · intro p srcs h
      cases h
  · rw [if_neg hz]
    refine ⟨hlogs, ?_, ?_⟩
    · intro p entries h
      injection h with h'
      injection h' with h1 h2
      rw [← h2]
      exact hkeys
    · intro p srcs h
      injection h with h1 h2
      rw [← h2]
      exact hkeys

/-- Witness for `financedl_unknown_inst_silent`: requesting "chase" (a
direct-connect identity, unknown to the session registry) alongside
capitalone: the run succeeds with sources `["capitalone"]` and "chase" is
not among them. -/
theorem financedl_unknown_inst_silent_witness :
    (ENV_KEYS "chase" = none) ∧
    ((financedl_main envCap ["capitalone", "chase"] "/tmp/x").result =
      .ok config_path ["capitalone"]) ∧
    ("chase" ∉ (["capitalone"] : List String)) :=
  ⟨rfl, rfl,
   (financedl_unknown_inst_silent envCap ["capitalone", "chase"] "/tmp/x" "chase"
      rfl).2.2 config_path ["capitalone"] rfl⟩

lemma isDigitCh_digitChar (n : Nat) : isDigitCh (digitChar n) = true := by
  unfold digitChar isDigitCh
  have h : n % 10 < 10 := Nat.mod_lt _ (by decide)
  set k := n % 10 with hk
  interval_cases k <;> decide

lemma tsFormatOk_strftimeTs (t : LocalTime) : tsFormatOk (strftimeTs t) = true := by
  unfold tsFormatOk strftimeTs pad4 pad2
  simp [isDigitCh_digitChar]

lemma client_success_general (w : World) (inst : String) (days : Int)
    (output : String) (bytes : List Nat) (cfg : InstCfg)
    (hofx : w.hasOfxtools = true)
    (hcfg : INSTITUTIONS inst = some cfg)
    (hu : getenv w.env (strUpper inst ++ "_USERNAME") ≠ "")
    (hp : getenv w.env (strUpper inst ++ "_PASSWORD") ≠ "")
    (hnet : w.netResponse = .ok bytes)
    (ho1 : output ≠ "") (ho2 : endsWithSlash output = false)
    (hi1 : inst ≠ "") (hi2 : isabs inst = false)
    (hi3 : endsWithSlash inst = false) :
    (client_main w inst days output).printed.success = true ∧
    (client_main w inst days output).printed.files =
      [output ++ "/" ++ inst ++ "/" ++ inst ++ "_" ++ strftimeTs w.tLocal ++ ".ofx"] ∧
    (client_main w inst days output).effects.filesWritten =
      [(output ++ "/" ++ inst ++ "/" ++ inst ++ "_" ++ strftimeTs w.tLocal ++ ".ofx",
        bytes)] ∧
    tsFormatOk (strftimeTs w.tLocal) = true ∧
    (client_main w inst days output).exitCode = 0 := by
  have hfname : ospath_join (ospath_join output inst)
      (inst ++ "_" ++ strftimeTs w.tLocal ++ ".ofx") =
      output ++ "/" ++ inst ++ "/" ++ inst ++ "_" ++ strftimeTs w.tLocal ++ ".ofx" := by
    rw [join_normal output inst ho1 ho2 hi2]
    have hA1 : output ++ "/" ++ inst ≠ "" := append_ne_empty_right _ _ hi1
    have hA2 : endsWithSlash (output ++ "/" ++ inst) = false := by
      rw [endsWithSlash_append _ _ hi1]
      exact hi3
    have hB : isabs (inst ++ "_" ++ strftimeTs w.tLocal ++ ".ofx") = false := by
      rw [String.append_assoc, String.append_assoc, isabs_append _ _ hi1]
      exact hi2
    rw [join_normal _ _ hA1 hA2 hB]
    simp [String.append_assoc]
  unfold client_main
  rw [if_neg (not_or.mpr ⟨hu, hp⟩)]
  unfold download_ofx
  rw [hofx, hcfg, hnet]
  refine ⟨rfl, ?_, ?_, tsFormatOk_strftimeTs w.tLocal, rfl⟩
  · show [ospath_join (ospath_join output inst)
        (inst ++ "_" ++ strftimeTs w.tLocal ++ ".ofx")] =
      [output ++ "/" ++ inst ++ "/" ++ inst ++ "_" ++ strftimeTs w.tLocal ++ ".ofx"]
    rw [hfname]
  · show [(ospath_join (ospath_join output inst)
        (inst ++ "_" ++ strftimeTs w.tLocal ++ ".ofx"), bytes)] =
      [(output ++ "/" ++ inst ++ "/" ++ inst ++ "_" ++ strftimeTs w.tLocal ++ ".ofx",
        bytes)]
    rw [hfname]

/-- C3: a direct-connect invocation whose protocol session answers
successfully writes exactly one file, at
`<output>/<institution>/<institution>_<timestamp>.ofx` with the timestamp in
14-digit `YYYYMMDD_HHMMSS` shape, and prints success with that single path
as the whole `files` list, exiting 0. -/
theorem client_success_single_file (w : World) (inst : String) (days : Int)
    (output : String) (bytes : List Nat)
    (hofx : w.hasOfxtools = true)
    (hinst : inst = "chase" ∨ inst = "usaa")
    (hu : getenv w.env (strUpper inst ++ "_USERNAME") ≠ "")
    (hp : getenv w.env (strUpper inst ++ "_PASSWORD") ≠ "")
    (hnet : w.netResponse = .ok bytes)
    (ho1 : output ≠ "") (ho2 : endsWithSlash output = false) :
    (client_main w inst days output).printed.success = true ∧
    (client_main w inst days output).printed.files =
      [output ++ "/" ++ inst ++ "/" ++ inst ++ "_" ++ strftimeTs w.tLocal ++ ".ofx"] ∧
    (client_main w inst days output).effects.filesWritten =
      [(output ++ "/" ++ inst ++ "/" ++ inst ++ "_" ++ strftimeTs w.tLocal ++ ".ofx",
        bytes)] ∧
    tsFormatOk (strftimeTs w.tLocal) = true ∧
    (client_main w inst days output).exitCode = 0 := by
  rcases hinst with h | h
  · subst h
    exact client_success_general w "chase" days output bytes
      ⟨"https://ofx.chase.com", "10898", "B1", "072000326"⟩
      hofx rfl hu hp hnet ho1 ho2 (by decide) (by decide) (by decide)
  · subst h
    exact client_success_general w "usaa" days output bytes
      ⟨"https://service2.usaa.com/ofx/OFXServer", "24591", "USAA", "314074269"⟩
      hofx rfl hu hp hnet ho1 ho2 (by decide) (by decide) (by decide)

/-- A world with Chase credentials whose protocol session answers with the
bytes `[1, 2, 3]`. -/
def wOk : World := ⟨true, envChase, 0, 0, timeA, .ok [1, 2, 3]⟩

/-- Witness for `client_success_single_file`: the chase run under `wOk`
writes exactly `/app/downloads/chase/chase_20261012_030405.ofx`. -/
theorem client_success_single_file_witness :
    (client_main wOk "chase" 30 "/app/downloads").printed.success = true ∧
    (client_main wOk "chase" 30 "/app/downloads").printed.files =
      ["/app/downloads/chase/chase_20261012_030405.ofx"] ∧
    (client_main wOk "chase" 30 "/app/downloads").effects.filesWritten =
      [("/app/downloads/chase/chase_20261012_030405.ofx", [1, 2, 3])] ∧
    tsFormatOk "20261012_030405" = true ∧
    (client_main wOk "chase" 30 "/app/downloads").exitCode = 0 :=
  client_success_single_file wOk "chase" 30 "/app/downloads" [1, 2, 3] rfl
    (Or.inl rfl) (by decide) (by decide) rfl (by decide) (by decide)
